import Mathlib

/-!
Shallow embedding of the resume-analysis repository (src/app.py and
src/resume_analyzer_mcp.py).

Python strings are modelled as Lean `String`s, manipulated at the level of
their character lists so that every definition evaluates inside the kernel.
Python's ASCII-relevant behaviour of `str.lower`, `str.strip`, `str.split`,
`str.splitlines` and the `in` substring test is reproduced by `pyLower`,
`pyStrip`, `pySplit`, `splitLines` and `pyIn`.  Python numbers are modelled
as `Nat` (the integer score components) and `ℚ` (the float results of the
`/` divisions); the only inexactness of Python floats relevant here is a
deviation of order 1e-14 at exact grade thresholds, which no claim settled
below depends on.
-/

/-- Model of Python `str.lower` for the ASCII range (all keyword tables and
inputs used by the repository are ASCII). -/
def lowerChar (c : Char) : Char :=
  if ('A' ≤ c ∧ c ≤ 'Z') then Char.ofNat (c.toNat + 32) else c

/-- Model of `s.lower()`. -/
def pyLower (s : String) : String := String.mk (s.toList.map lowerChar)

/-- Model of the Python substring test `needle in hay`. -/
def pyIn (needle hay : String) : Bool := decide (needle.toList <:+: hay.toList)

/-- Model of `s.strip()`: whitespace removed from both ends. -/
def pyStrip (s : String) : String :=
  String.mk (((s.toList.dropWhile Char.isWhitespace).reverse.dropWhile
    Char.isWhitespace).reverse)

/-- Model of Python `str.split(sep)` on character lists: repeatedly cut at the
leftmost, non-overlapping occurrence of `sep`.  The fuel argument (always
instantiated with the length of the list) only makes the recursion
structural. -/
def pySplitF (sep : List Char) : Nat → List Char → List (List Char)
  | _, [] => [[]]
  | 0, cs => [cs]
  | f+1, c :: rest =>
    if sep.isPrefixOf (c :: rest) && !sep.isEmpty then
      [] :: pySplitF sep f ((c :: rest).drop sep.length)
    else
      match pySplitF sep f rest with
      | [] => [[c]]
      | h :: t => (c :: h) :: t

/-- Model of `s.split(sep)`. -/
def pySplit (sep : List Char) (cs : List Char) : List (List Char) :=
  pySplitF sep cs.length cs

/-- Model of `text.splitlines()` for texts whose line terminator is `'\n'`:
like splitting on `'\n'`, except that no empty final piece is produced after
a trailing terminator and the empty text yields no lines. -/
def splitLines (text : String) : List String :=
  let parts := (pySplit [('\n')] text.toList).map String.mk
  if parts.getLast? = some ("") then parts.dropLast else parts

/-- A stored candidate record (the dict produced by `extract_info` in
src/app.py, plus the `_id` that MongoDB assigns on insertion, which the
analysis code uses only to exclude the reference resume from a similarity
search). -/
structure Resume where
  id : Nat
  name : String
  email : String
  phone : String
  skills : List String
  education : List String
  experience : List String
  summary : String
deriving DecidableEq

/-- Result dictionary of `calculate_resume_score`
(src/resume_analyzer_mcp.py, lines 116-172).  The `details` list of the
original is pure display formatting and is not modelled. -/
structure ScoreResult where
  score : ℚ
  max_score : ℚ
  percentage : ℚ
  grade : String
deriving DecidableEq

/-- Inner loop of the job-requirements bonus (lines 156-160): a requirement
matches when some skill case-insensitively contains it; the `break` after the
first hit makes each requirement count at most once. -/
def skillMatchesReq (skills : List String) (req : String) : Bool :=
  skills.any (fun sk => pyIn (pyLower req) (pyLower sk))

/-- Number of requirements matched by at least one skill
(`matching_skills` at line 164 after the loop of lines 156-160). -/
def matchingSkillsCount (skills : List String) (reqs : List String) : Nat :=
  reqs.countP (fun req => skillMatchesReq skills req)

/-- Base score of lines 122-151: capped skills, experience and education
components, contact completeness, and the summary bonus (Python truthiness
`if summary and len(summary) > 50`). -/
def baseScore (resume : Resume) : Nat :=
  min (resume.skills.length * 3) 30 +
  min (resume.experience.length * 7) 35 +
  min (resume.education.length * 10) 20 +
  ((if resume.email ≠ ("") then 5 else 0) + (if resume.phone ≠ ("") then 5 else 0)) +
  (if resume.summary ≠ ("") ∧ 50 < resume.summary.length then 5 else 0)

/-- Model of `calculate_resume_score` (lines 116-172).  `job_requirements`
defaults to `None` in Python and both `None` and `[]` fail the
`if job_requirements:` truthiness test, so the absent case is modelled by the
empty list.  Python's float thresholds `max_score * 0.8` etc. are modelled by
the exact rationals `max_score * (4/5)` etc. -/
def calculate_resume_score (resume : Resume) (job_requirements : List String) :
    ScoreResult :=
  let score : ℚ :=
    if job_requirements.isEmpty then (baseScore resume : ℚ)
    else (baseScore resume : ℚ) +
      (matchingSkillsCount resume.skills job_requirements : ℚ) /
        (job_requirements.length : ℚ) * 20
  let ms : ℚ := if job_requirements.isEmpty then 100 else 120
  { score := score
    max_score := ms
    percentage := score / ms * 100
    grade :=
      if ms * (4/5) ≤ score then ("A")
      else if ms * (3/5) ≤ score then ("B")
      else if ms * (2/5) ≤ score then ("C")
      else ("D") }

/-- Grade as a function of the percentage alone, with the breakpoints the
spec states (A at 80, B at 60, C at 40, else D). -/
def gradeFromPercentage (p : ℚ) : String :=
  if 80 ≤ p then ("A") else if 60 ≤ p then ("B")
  else if 40 ≤ p then ("C") else ("D")

/-- Jaccard index over two skill lists seen as sets, as computed at lines
535-536: `len(common_skills) / len(reference_skills.union(resume_skills))`. -/
def jaccard (a b : List String) : ℚ :=
  ((a.toFinset ∩ b.toFinset).card : ℚ) / ((a.toFinset ∪ b.toFinset).card : ℚ)

/-- Relation used to model Python's stable descending sort of the
similarity list (`similarities.sort(key=lambda x: x['score'], reverse=True)`,
line 546): a pair precedes another when its score is at least as large. -/
def simLe (p q : Resume × ℚ) : Prop := q.2 ≤ p.2

instance : DecidableRel simLe := fun p q => inferInstanceAs (Decidable (q.2 ≤ p.2))

instance : IsTotal (Resume × ℚ) simLe := ⟨fun p q => le_total q.2 p.2⟩

instance : IsTrans (Resume × ℚ) simLe := ⟨fun _ _ _ h h' => le_trans h' h⟩

/-- Similarity pairs collected by the loop of lines 532-543: every corpus
record other than the reference (the store query excludes the reference id),
kept with its score when its skill set is non-empty and the score is
strictly positive. -/
def simPairs (ref : Resume) (corpus : List Resume) : List (Resume × ℚ) :=
  (corpus.filter (fun r => decide (r.id ≠ ref.id))).filterMap (fun r =>
    if r.skills.toFinset = ∅ then none
    else if 0 < jaccard ref.skills r.skills then some (r, jaccard ref.skills r.skills)
    else none)

/-- The similarity list after the stable descending sort of line 546. -/
def simSorted (ref : Resume) (corpus : List Resume) : List (Resume × ℚ) :=
  List.insertionSort simLe (simPairs ref corpus)

/-- Model of the `find_similar_resumes` tool branch (lines 512-547): `none`
models the early `"Reference resume has no skills to compare against."`
return; otherwise the sorted similarity list truncated to `limit`
(line 547).  The subsequent formatting, and the distinct message printed
when the truncated list is empty, are not modelled. -/
def find_similar_resumes (ref : Resume) (corpus : List Resume) (limit : Nat) :
    Option (List (Resume × ℚ)) :=
  if ref.skills.toFinset = ∅ then none
  else some ((simSorted ref corpus).take limit)

/-- Statistics payload of the `get_database_stats` branch (lines 570-602):
the counts from `count_documents` and the three `$avg` aggregation values. -/
structure DbStats where
  total : Nat
  withSkills : Nat
  withExperience : Nat
  withEducation : Nat
  withEmail : Nat
  withPhone : Nat
  avgSkills : ℚ
  avgExperience : ℚ
  avgEducation : ℚ
deriving DecidableEq

/-- Output of the `get_database_stats` branch: either the early
`"Database is empty."` message (lines 573-574) or the statistics report. -/
inductive StatsOutput where
  | emptyDb : StatsOutput
  | stats : DbStats → StatsOutput
deriving DecidableEq

/-- Model of the `get_database_stats` branch (lines 570-620) over a corpus
snapshot.  The `$ne` filters of `count_documents` are the non-emptiness
tests; the `$avg` aggregation averages the per-record counts over all
records. -/
def get_database_stats (corpus : List Resume) : StatsOutput :=
  let total := corpus.length
  if total = 0 then StatsOutput.emptyDb
  else
    StatsOutput.stats
      { total := total
        withSkills := (corpus.filter (fun r => decide (r.skills ≠ []))).length
        withExperience := (corpus.filter (fun r => decide (r.experience ≠ []))).length
        withEducation := (corpus.filter (fun r => decide (r.education ≠ []))).length
        withEmail := (corpus.filter (fun r => decide (r.email ≠ ("")))).length
        withPhone := (corpus.filter (fun r => decide (r.phone ≠ ("")))).length
        avgSkills := ((corpus.map (fun r => r.skills.length)).sum : ℚ) / (total : ℚ)
        avgExperience :=
          ((corpus.map (fun r => r.experience.length)).sum : ℚ) / (total : ℚ)
        avgEducation :=
          ((corpus.map (fun r => r.education.length)).sum : ℚ) / (total : ℚ) }

/-- The fixed 23-token skills vocabulary `sample_skills` of src/app.py,
lines 45-50. -/
def sample_skills : List String :=
  [("Python"), ("Java"), ("SQL"), ("Excel"), ("C++"), ("Machine Learning"),
   ("Data Science"), ("TensorFlow"), ("Pandas"), ("Numpy"), ("Power BI"),
   ("React"), ("Node.js"), ("JavaScript"), ("HTML"), ("CSS"), ("MongoDB"),
   ("Flask"), ("Django"), ("AWS"), ("Docker"), ("Kubernetes"), ("Git")]

/-- Education keyword table of src/app.py, line 55. -/
def education_keywords : List String :=
  [("B.Tech"), ("M.Tech"), ("Bachelor"), ("Master"), ("PhD"), ("BSc"),
   ("MSc"), ("MBA"), ("High School")]

/-- Experience keyword table of src/app.py, line 61. -/
def experience_keywords : List String :=
  [("experience"), ("worked"), ("project"), ("internship"), ("job"),
   ("role"), ("position")]

/-- Line test of src/app.py line 63:
`any(word in line.lower() for word in experience_keywords)` (the keywords
are already lower case and are used verbatim). -/
def expLineMatch (line : String) : Bool :=
  experience_keywords.any (fun w => pyIn w (pyLower line))

/-- Education lines contributed by one source line (src/app.py lines 56-59):
one `line.strip()` copy per keyword with `keyword.lower() in line.lower()`. -/
def eduLineMatches (line : String) : List String :=
  (education_keywords.filter (fun k => pyIn (pyLower k) (pyLower line))).map
    (fun _ => pyStrip line)

/-- Name pass of src/app.py lines 36-38: the first PERSON-labelled entity
whose text is non-empty wins (`if ent.label_ == "PERSON" and not name`).
Entities are (label, text) pairs. -/
def namePass (entities : List (String × String)) : String :=
  entities.foldl (fun nm e => if e.1 = ("PERSON") ∧ nm = ("") then e.2 else nm) ("")

/-- Python regex `\w` (word character), ASCII range. -/
def isWordChar (c : Char) : Bool := c.isAlphanum || c = ('_')

/-- Character class `[\w\.-]` used for the local part and the domain of the
email pattern of src/app.py line 40. -/
def isLocalChar (c : Char) : Bool := isWordChar c || c = ('.') || c = ('-')

/-- Whether position `i` of the text holds a word character (`false` outside
the text). -/
def isWordAt (cs : List Char) (i : Nat) : Bool :=
  match cs[i]? with
  | some c => isWordChar c
  | none => false

/-- Regex `\b` at position `i`: exactly one of the two adjacent positions
holds a word character. -/
def wordBoundary (cs : List Char) (i : Nat) : Bool :=
  (decide (0 < i) && isWordAt cs (i - 1)) != isWordAt cs i

/-- Top-level segment `\w{2,4}` of the email pattern. -/
def tldOk (t : List Char) : Bool :=
  decide (2 ≤ t.length) && decide (t.length ≤ 4) && t.all isWordChar

/-- Decomposition `[\w\.-]+ '.' \w{2,4}` of what follows the `@`: some dot
position `d` splits it into a non-empty run of `[\w\.-]` characters and a
valid top-level segment. -/
def domOk (rest : List Char) : Bool :=
  (List.range rest.length).any (fun d =>
    decide (rest[d]? = some ('.')) && decide (0 < d) &&
    (rest.take d).all isLocalChar && tldOk (rest.drop (d + 1)))

/-- Exact match of `[\w\.-]+@[\w\.-]+\.\w{2,4}` against a whole chunk:
the position `a` of the (necessarily unique) `@` splits it into a non-empty
local part and a domain decomposition. -/
def emailCore (chunk : List Char) : Bool :=
  (List.range chunk.length).any (fun a =>
    decide (chunk[a]? = some ('@')) && decide (0 < a) &&
    (chunk.take a).all isLocalChar && domOk (chunk.drop (a + 1)))

/-- The email regex `\b[\w\.-]+@[\w\.-]+\.\w{2,4}\b` matches the text
exactly at span `[i, i+l)`. -/
def emailMatchAt (cs : List Char) (i l : Nat) : Bool :=
  decide (0 < l) && decide (i + l ≤ cs.length) &&
  wordBoundary cs i && wordBoundary cs (i + l) &&
  emailCore ((cs.drop i).take l)

/-- First index at or after `i` (within `fuel` steps) satisfying `p`;
models the left-to-right scan of `re.search`. -/
def firstFrom (p : Nat → Bool) : Nat → Nat → Option Nat
  | _, 0 => none
  | i, f+1 => if p i then some i else firstFrom p (i + 1) f

/-- Largest `k` with `1 ≤ k ≤ l` satisfying `p`, tried from `l` downwards;
models the greedy choice of the match end.  For this particular pattern the
Python backtracking order (longest domain first, then longest top-level
segment) coincides with taking the longest overall match at a given start:
the local part has a forced length because `@` is outside its class, and two
viable dot positions are at least 3 apart (each needs two word characters
after it), so a later dot always yields a strictly longer end than any end
reachable from an earlier dot (whose top-level segment has at most 4
characters). -/
def bestLen (p : Nat → Bool) : Nat → Option Nat
  | 0 => none
  | l+1 => if p (l + 1) then some (l + 1) else bestLen p l

/-- Length of the greedy email match starting at `i`, if any. -/
def emailLenAt (cs : List Char) (i : Nat) : Option Nat :=
  bestLen (fun l => emailMatchAt cs i l) (cs.length - i)

/-- Model of `re.search(r"\b[\w\.-]+@[\w\.-]+\.\w{2,4}\b", text)`:
the leftmost start admitting a match, with the greedy length. -/
def searchEmail (cs : List Char) : Option (Nat × Nat) :=
  match firstFrom (fun i => (emailLenAt cs i).isSome) 0 cs.length with
  | some i =>
    match emailLenAt cs i with
    | some l => some (i, l)
    | none => none
  | none => none

/-- The email field of src/app.py lines 40-42: the matched substring, or the
empty string when there is no match. -/
def extract_email (text : String) : String :=
  match searchEmail text.toList with
  | some (i, l) => String.mk ((text.toList.drop i).take l)
  | none => ("")

/-- The phone regex `\b\d{10}\b` matches the text exactly at span
`[i, i+10)`. -/
def phoneMatchAt (cs : List Char) (i : Nat) : Bool :=
  decide (i + 10 ≤ cs.length) &&
  wordBoundary cs i && wordBoundary cs (i + 10) &&
  ((cs.drop i).take 10).all Char.isDigit

/-- Model of `re.search(r"\b\d{10}\b", text)`: the leftmost matching start
(the match length is fixed at 10). -/
def searchPhone (cs : List Char) : Option Nat :=
  firstFrom (fun i => phoneMatchAt cs i) 0 cs.length

/-- The phone field of src/app.py lines 41-43. -/
def extract_phone (text : String) : String :=
  match searchPhone text.toList with
  | some i => String.mk ((text.toList.drop i).take 10)
  | none => ("")

/-- Model of `extract_info` (src/app.py lines 26-77).  The Python
append-loops over lines are filter/map compositions; `list(set(...))` keeps
exactly the distinct collected elements (in an order Python does not
specify), modelled by `List.dedup`; `_id` is assigned by the store on
insertion, not by extraction, and is modelled as 0 here. -/
def extract_info (text : String) (entities : List (String × String)) : Resume :=
  let paragraphs :=
    ((pySplit [('\n'), ('\n')] text.toList).map String.mk).filterMap (fun p =>
      if 50 < (pyStrip p).length then some (pyStrip p) else none)
  { id := 0
    name := namePass entities
    email := extract_email text
    phone := extract_phone text
    skills := (sample_skills.filter (fun sk => pyIn (pyLower sk) (pyLower text))).dedup
    education := ((splitLines text).flatMap eduLineMatches).dedup
    experience := (((splitLines text).filter expLineMatch).map pyStrip).take 5
    summary := paragraphs.headD ("") }

/-- Top-level segment as the claim words it: 2-4 letters (the code's
`\w{2,4}` also accepts digits and underscores). -/
def tldLetters (t : List Char) : Bool :=
  decide (2 ≤ t.length) && decide (t.length ≤ 4) && t.all Char.isAlpha

/-- Domain-with-letters-tld decomposition used by the claim's pattern. -/
def domClaim (rest : List Char) : Bool :=
  (List.range rest.length).any (fun d =>
    decide (rest[d]? = some ('.')) && decide (0 < d) &&
    (rest.take d).all isLocalChar && tldLetters (rest.drop (d + 1)))

/-- The claim's email pattern, following its words: `local-part@domain.tld`
over the `[alphanumeric dot underscore hyphen]` alphabet with a top-level
segment of 2-4 letters (no word-boundary requirement is stated). -/
def emailClaimCore (chunk : List Char) : Bool :=
  (List.range chunk.length).any (fun a =>
    decide (chunk[a]? = some ('@')) && decide (0 < a) &&
    (chunk.take a).all isLocalChar && domClaim (chunk.drop (a + 1)))

/-- Concrete record used by witnesses: a complete resume with 10 skills,
5 experience entries, 2 education entries, contact data and a 51-character
summary. -/
def wFull : Resume :=
  { id := 0, name := ("n"), email := ("e@x.co"), phone := ("1234567890"),
    skills := [("a"),("b"),("c"),("d"),("e"),("f"),("g"),("h"),("i"),("j")],
    education := [("x"),("y")],
    experience := [("p"),("q"),("r"),("s"),("t")],
    summary := ("123456789012345678901234567890123456789012345678901") }

/-- Concrete record with base score 85 (30 + 35 + 20, no contact data and no
summary): grade A without job requirements. -/
def wBase85 : Resume :=
  { id := 0, name := ("n"), email := (""), phone := (""),
    skills := [("a"),("b"),("c"),("d"),("e"),("f"),("g"),("h"),("i"),("j")],
    education := [("x"),("y")],
    experience := [("p"),("q"),("r"),("s"),("t")],
    summary := ("") }

/-- Concrete minimal record with a single skill. -/
def wSmall : Resume :=
  { id := 0, name := (""), email := (""), phone := (""),
    skills := [("Python")], education := [], experience := [], summary := ("") }

/-- Concrete record with no skills. -/
def wNoSkills : Resume :=
  { id := 9, name := (""), email := (""), phone := (""),
    skills := [], education := [], experience := [], summary := ("") }

/-- Concrete reference record for the similarity-ranking witness. -/
def wRef : Resume :=
  { id := 1, name := ("r"), email := (""), phone := (""),
    skills := [("Python"), ("SQL")], education := [], experience := [],
    summary := ("") }

/-- Concrete corpus record sharing one skill with `wRef`. -/
def wSim1 : Resume :=
  { id := 2, name := ("s"), email := (""), phone := (""),
    skills := [("Python")], education := [], experience := [], summary := ("") }

/-- Concrete corpus record sharing no skill with `wRef`. -/
def wSim2 : Resume :=
  { id := 3, name := ("t"), email := (""), phone := (""),
    skills := [("Java")], education := [], experience := [], summary := ("") }

/-! ## Helper lemmas -/

theorem baseScore_le_100 (resume : Resume) : baseScore resume ≤ 100 := by
  unfold baseScore
  have h1 : min (resume.skills.length * 3) 30 ≤ 30 := min_le_right _ _
  have h2 : min (resume.experience.length * 7) 35 ≤ 35 := min_le_right _ _
  have h3 : min (resume.education.length * 10) 20 ≤ 20 := min_le_right _ _
  split_ifs <;> omega

theorem gradeChain_eq_gradeFromPercentage (s ms : ℚ) (hms : 0 < ms) :
    (if ms * (4/5) ≤ s then ("A") else if ms * (3/5) ≤ s then ("B")
     else if ms * (2/5) ≤ s then ("C") else ("D")) =
      gradeFromPercentage (s / ms * 100) := by
  have e4 : (ms * (4/5) ≤ s) ↔ (80 ≤ s / ms * 100) := by
    rw [div_mul_eq_mul_div, le_div_iff₀ hms]
    constructor <;> intro h <;> linarith
  have e3 : (ms * (3/5) ≤ s) ↔ (60 ≤ s / ms * 100) := by
    rw [div_mul_eq_mul_div, le_div_iff₀ hms]
    constructor <;> intro h <;> linarith
  have e2 : (ms * (2/5) ≤ s) ↔ (40 ≤ s / ms * 100) := by
    rw [div_mul_eq_mul_div, le_div_iff₀ hms]
    constructor <;> intro h <;> linarith
  unfold gradeFromPercentage
  simp only [e4, e3, e2]

/-! ## Claims about scoring -/

/-- C1: for every record and requirement list, `0 ≤ score ≤ max_score`;
the maximum is 100 without requirements and 120 with a non-empty list; each
requirement contributes at most one match, and the bonus is
`(matches / |job_requirements|) * 20`. -/
theorem C1_score_bounds (resume : Resume) (reqs : List String) :
    0 ≤ (calculate_resume_score resume reqs).score ∧
    (calculate_resume_score resume reqs).score ≤
      (calculate_resume_score resume reqs).max_score ∧
    (reqs = [] → (calculate_resume_score resume reqs).max_score = 100) ∧
    (reqs ≠ [] →
      (calculate_resume_score resume reqs).max_score = 120 ∧
      (calculate_resume_score resume reqs).score = (baseScore resume : ℚ) +
        ((matchingSkillsCount resume.skills reqs : ℚ) / (reqs.length : ℚ)) * 20 ∧
      matchingSkillsCount resume.skills reqs ≤ reqs.length) := by
  have hb0 : (0 : ℚ) ≤ (baseScore resume : ℚ) := Nat.cast_nonneg _
  have hb100 : (baseScore resume : ℚ) ≤ 100 := by
    exact_mod_cast baseScore_le_100 resume
  by_cases h : reqs.isEmpty
  · have h' : reqs = [] := List.isEmpty_iff.mp h
    unfold calculate_resume_score
    rw [if_pos h, if_pos h]
    refine ⟨hb0, by simpa using hb100, fun _ => rfl, fun hc => absurd h' hc⟩
  · have h' : reqs ≠ [] := fun he => h (by simp [he])
    have hlen : 0 < (reqs.length : ℚ) := by
      have : 0 < reqs.length := List.length_pos.mpr h'
      exact_mod_cast this
    have hcnt : (matchingSkillsCount resume.skills reqs : ℚ) ≤ (reqs.length : ℚ) := by
      exact_mod_cast List.countP_le_length _
    have hbonus0 : (0 : ℚ) ≤
        (matchingSkillsCount resume.skills reqs : ℚ) / (reqs.length : ℚ) * 20 := by
      positivity
    have hbonus20 :
        (matchingSkillsCount resume.skills reqs : ℚ) / (reqs.length : ℚ) * 20 ≤ 20 := by
      have hdiv : (matchingSkillsCount resume.skills reqs : ℚ) / (reqs.length : ℚ) ≤ 1 :=
        (div_le_one hlen).mpr hcnt
      nlinarith
    unfold calculate_resume_score
    rw [if_neg h, if_neg h]
    exact ⟨by positivity, by linarith, fun hc => absurd hc h',
      fun _ => ⟨rfl, rfl, List.countP_le_length _⟩⟩

/-- C1 witness: the bounds and the bonus formula at a concrete record and a
concrete one-element requirement list. -/
theorem C1_score_bounds_witness :
    0 ≤ (calculate_resume_score wSmall [("x")]).score ∧
    (calculate_resume_score wSmall [("x")]).score ≤
      (calculate_resume_score wSmall [("x")]).max_score ∧
    (calculate_resume_score wSmall [("x")]).max_score = 120 ∧
    (calculate_resume_score wSmall [("x")]).score = (baseScore wSmall : ℚ) +
      ((matchingSkillsCount wSmall.skills [("x")] : ℚ) /
        (([("x")] : List String).length : ℚ)) * 20 ∧
    matchingSkillsCount wSmall.skills [("x")] ≤ ([("x")] : List String).length := by
  obtain ⟨a, b, -, d⟩ := C1_score_bounds wSmall [("x")]
  obtain ⟨d1, d2, d3⟩ := d (by decide)
  exact ⟨a, b, d1, d2, d3⟩

/-- C2: a record with exactly 10 skills, 5 experience entries, 2 education
entries, non-empty email and phone and a summary longer than 50 characters
scores exactly 100 = 30+35+20+10+5 without job requirements, with percentage
100.0 and grade A. -/
theorem C2_perfect_score (resume : Resume)
    (hsk : resume.skills.length = 10) (hex : resume.experience.length = 5)
    (hed : resume.education.length = 2) (hem : resume.email ≠ (""))
    (hph : resume.phone ≠ ("")) (hsu : 50 < resume.summary.length) :
    calculate_resume_score resume [] =
      { score := 100, max_score := 100, percentage := 100, grade := ("A") } := by
  have hsu' : resume.summary ≠ ("") := by
    intro he
    rw [he] at hsu
    exact absurd hsu (by decide)
  have hbase : baseScore resume = 100 := by
    unfold baseScore
    rw [hsk, hex, hed]
    simp [hem, hph, hsu, hsu']
  norm_num [calculate_resume_score, hbase]

/-- C2 witness: the perfect score at the concrete complete record. -/
theorem C2_perfect_score_witness :
    calculate_resume_score wFull [] =
      { score := 100, max_score := 100, percentage := 100, grade := ("A") } :=
  C2_perfect_score wFull (by decide) (by decide) (by decide) (by decide)
    (by decide) (by decide)

/-- C3 counterexample: the record `wBase85` (base score 85) receives grade A
without job requirements but grade B against the unmatched requirement list
`["zzz"]`, so the grade is not insensitive to supplying requirements. -/
theorem C3_grade_counterexample :
    (calculate_resume_score wBase85 [("zzz")]).grade ≠
      (calculate_resume_score wBase85 []).grade := by
  have hm : matchingSkillsCount wBase85.skills [("zzz")] = 0 := by decide
  have hb : baseScore wBase85 = 85 := by decide
  have h1 : (calculate_resume_score wBase85 []).grade = ("A") := by
    norm_num [calculate_resume_score, hb]
  have h2 : (calculate_resume_score wBase85 [("zzz")]).grade = ("B") := by
    norm_num [calculate_resume_score, hb, hm]
  rw [h1, h2]
  decide

/-- C3 amended: the grade is always the letter obtained by applying the fixed
80/60/40 percentage breakpoints to the percentage computed against the
(possibly extended) maximum — the same rule with and without job
requirements — although the letters produced by the two calls can differ. -/
theorem C3_amended_grade_rule (resume : Resume) (reqs : List String) :
    (calculate_resume_score resume reqs).grade =
      gradeFromPercentage ((calculate_resume_score resume reqs).percentage) := by
  unfold calculate_resume_score
  by_cases h : reqs.isEmpty <;>
    simp only [h, if_true, if_false, ite_true, ite_false] <;>
    exact gradeChain_eq_gradeFromPercentage _ _ (by norm_num)

/-- C9: when the record has at least one skill and the requirement list
contains the empty string, that requirement is counted as matched (the empty
string is a substring of every skill), so the match count is at least 1 and
the bonus is strictly positive. -/
theorem C9_empty_requirement_matches (resume : Resume) (reqs : List String)
    (hsk : resume.skills ≠ []) (hmem : ("") ∈ reqs) :
    skillMatchesReq resume.skills ("") = true ∧
    1 ≤ matchingSkillsCount resume.skills reqs ∧
    (baseScore resume : ℚ) < (calculate_resume_score resume reqs).score := by
  have hreq : skillMatchesReq resume.skills ("") = true := by
    rcases hs : resume.skills with _ | ⟨s, rest⟩
    · exact absurd hs hsk
    · have hn : (pyLower ("")).toList = ([] : List Char) := by decide
      unfold skillMatchesReq pyIn
      simp only [hs, List.any_cons, Bool.or_eq_true, decide_eq_true_eq]
      left
      rw [hn]
      exact List.nil_infix
  have hcnt : 1 ≤ matchingSkillsCount resume.skills reqs := by
    have : 0 < matchingSkillsCount resume.skills reqs :=
      List.countP_pos_iff.mpr ⟨(""), hmem, hreq⟩
    omega
  refine ⟨hreq, hcnt, ?_⟩
  have hne : reqs ≠ [] := fun he => by simp [he] at hmem
  have hempty : reqs.isEmpty = false := by
    simp [List.isEmpty_iff, hne]
  have hlen : 0 < (reqs.length : ℚ) := by
    have : 0 < reqs.length := List.length_pos.mpr hne
    exact_mod_cast this
  have hcntq : (0 : ℚ) < (matchingSkillsCount resume.skills reqs : ℚ) := by
    exact_mod_cast hcnt
  unfold calculate_resume_score
  rw [if_neg (by simp [hempty])]
  have : (0 : ℚ) < (matchingSkillsCount resume.skills reqs : ℚ) /
      (reqs.length : ℚ) * 20 := by positivity
  linarith

/-- C9 witness: the empty requirement is matched for a record with one
skill. -/
theorem C9_empty_requirement_matches_witness :
    skillMatchesReq wSmall.skills ("") = true ∧
    1 ≤ matchingSkillsCount wSmall.skills [("")] ∧
    (baseScore wSmall : ℚ) < (calculate_resume_score wSmall [("")]).score :=
  C9_empty_requirement_matches wSmall [("")] (by decide) (by decide)

/-! ## Similarity lemmas -/

theorem jaccard_zero_of_empty_right (a b : List String) (hb : b.toFinset = ∅) :
    jaccard a b = 0 := by
  unfold jaccard
  rw [hb, Finset.inter_empty]
  simp

theorem filter_orderedInsert_score (v : ℚ) (p : Resume × ℚ)
    (l : List (Resume × ℚ)) :
    (List.orderedInsert simLe p l).filter (fun q => decide (q.2 = v)) =
      if p.2 = v then p :: l.filter (fun q => decide (q.2 = v))
      else l.filter (fun q => decide (q.2 = v)) := by
  induction l with
  | nil =>
    by_cases hv : p.2 = v <;> simp [List.orderedInsert, List.filter_cons, hv]
  | cons b t ih =>
    by_cases hle : simLe p b
    · rw [List.orderedInsert_of_le _ _ hle]
      by_cases hv : p.2 = v <;> simp [List.filter_cons, hv]
    · have hstep : List.orderedInsert simLe p (b :: t) =
          b :: List.orderedInsert simLe p t := by
        simp [List.orderedInsert, hle]
      rw [hstep]
      have hlt : p.2 < b.2 := lt_of_not_le hle
      by_cases hv : p.2 = v
      · have hbv : ¬ (b.2 = v) := by
          intro hbv
          rw [hbv, ← hv] at hlt
          exact lt_irrefl _ hlt
        simp [List.filter_cons, hbv, ih, hv]
      · by_cases hbv : b.2 = v <;> simp [List.filter_cons, hbv, ih, hv]

theorem filter_insertionSort_score (v : ℚ) (l : List (Resume × ℚ)) :
    (List.insertionSort simLe l).filter (fun q => decide (q.2 = v)) =
      l.filter (fun q => decide (q.2 = v)) := by
  induction l with
  | nil => rfl
  | cons p t ih =>
    simp only [List.insertionSort]
    rw [filter_orderedInsert_score]
    by_cases hv : p.2 = v <;> simp [List.filter_cons, hv, ih]

theorem simPairs_eq_filter (ref : Resume) (corpus : List Resume) :
    simPairs ref corpus =
      (corpus.filter (fun r => decide (r.id ≠ ref.id) &&
          decide (0 < jaccard ref.skills r.skills))).map
        (fun r => (r, jaccard ref.skills r.skills)) := by
  unfold simPairs
  induction corpus with
  | nil => rfl
  | cons r t ih =>
    simp only [ne_eq, decide_not, List.toFinset_eq_empty_iff] at ih
    by_cases hid : r.id = ref.id
    · simp [List.filter_cons, hid, ih]
    · by_cases hsk : r.skills = []
      · have hj : ¬ (0 < jaccard ref.skills ([] : List String)) := by
          rw [jaccard_zero_of_empty_right ref.skills ([] : List String) (by simp)]
          exact lt_irrefl 0
        simp [List.filter_cons, List.filterMap_cons, hid, hsk, hj, ih]
      · by_cases hj : 0 < jaccard ref.skills r.skills
        · simp [List.filter_cons, List.filterMap_cons, hid, hsk, hj, ih]
        · simp [List.filter_cons, List.filterMap_cons, hid, hsk, hj, ih]

/-! ## Claims about similarity -/

/-- C4: the skill-based Jaccard similarity is symmetric, lies in [0,1]
whenever the union is non-empty, equals 1 on any record with a non-empty
skill list compared with itself, and a reference with an empty skill list is
answered with the early no-skills return instead of an error. -/
theorem C4_jaccard_properties :
    (∀ a b : List String, jaccard a b = jaccard b a) ∧
    (∀ a b : List String, (a.toFinset ∪ b.toFinset).Nonempty →
      0 ≤ jaccard a b ∧ jaccard a b ≤ 1) ∧
    (∀ a : List String, a ≠ [] → jaccard a a = 1) ∧
    (∀ (ref : Resume) (corpus : List Resume) (limit : Nat), ref.skills = [] →
      find_similar_resumes ref corpus limit = none) := by
  refine ⟨?_, ?_, ?_, ?_⟩
  · intro a b
    unfold jaccard
    rw [Finset.inter_comm, Finset.union_comm]
  · intro a b hne
    have hpos : 0 < ((a.toFinset ∪ b.toFinset).card : ℚ) := by
      exact_mod_cast Finset.card_pos.mpr hne
    constructor
    · unfold jaccard
      positivity
    · apply (div_le_one hpos).mpr
      exact_mod_cast Finset.card_le_card Finset.inter_subset_union
  · intro a ha
    unfold jaccard
    rw [Finset.inter_self, Finset.union_self]
    have hne : a.toFinset ≠ ∅ := by
      simpa [List.toFinset_eq_empty_iff] using ha
    have hp : 0 < a.toFinset.card :=
      Finset.card_pos.mpr (Finset.nonempty_iff_ne_empty.mpr hne)
    have hcast : (a.toFinset.card : ℚ) ≠ 0 := by
      exact_mod_cast hp.ne'
    exact div_self hcast
  · intro ref corpus limit h
    unfold find_similar_resumes
    rw [if_pos (by simp [h])]

/-- C4 witness: the bounds at two concrete one-skill lists, self-similarity
1 at a concrete skill list, and the no-skills early return at a concrete
record. -/
theorem C4_jaccard_properties_witness :
    (0 ≤ jaccard [("a")] [("b")] ∧ jaccard [("a")] [("b")] ≤ 1) ∧
    jaccard [("Python")] [("Python")] = 1 ∧
    find_similar_resumes wNoSkills [wRef] 3 = none :=
  ⟨C4_jaccard_properties.2.1 [("a")] [("b")] (by decide),
   C4_jaccard_properties.2.2.1 [("Python")] (by decide),
   C4_jaccard_properties.2.2.2 wNoSkills [wRef] 3 (by decide)⟩

/-- C5: for a reference with non-empty skills the tool returns the sorted
similarity list truncated to the requested count; the collected pairs are
exactly the other records (self excluded by id) with strictly positive
Jaccard similarity, each paired with its similarity; the sorted list is a
permutation of the collected pairs, is descending in score, keeps ties in
the original corpus order (the filter by any fixed score value is
unchanged), and the returned list has length at most the requested count. -/
theorem C5_similar_ranking (ref : Resume) (corpus : List Resume) (limit : Nat)
    (h : ref.skills ≠ []) :
    find_similar_resumes ref corpus limit =
      some ((simSorted ref corpus).take limit) ∧
    simPairs ref corpus =
      (corpus.filter (fun r => decide (r.id ≠ ref.id) &&
          decide (0 < jaccard ref.skills r.skills))).map
        (fun r => (r, jaccard ref.skills r.skills)) ∧
    (simSorted ref corpus).Perm (simPairs ref corpus) ∧
    List.Sorted simLe (simSorted ref corpus) ∧
    (∀ v : ℚ, (simSorted ref corpus).filter (fun q => decide (q.2 = v)) =
      (simPairs ref corpus).filter (fun q => decide (q.2 = v))) ∧
    ((simSorted ref corpus).take limit).length ≤ limit := by
  have hne : ¬ (ref.skills.toFinset = ∅) := by
    simpa [List.toFinset_eq_empty_iff] using h
  refine ⟨?_, simPairs_eq_filter ref corpus, List.perm_insertionSort simLe _,
    List.sorted_insertionSort simLe _, fun v => filter_insertionSort_score v _, ?_⟩
  · unfold find_similar_resumes
    rw [if_neg hne]
  · rw [List.length_take]
    exact min_le_left _ _

/-- C5 witness: the ranking properties at a concrete corpus of three records
(the reference itself, one overlapping record, one disjoint record). -/
theorem C5_similar_ranking_witness :
    find_similar_resumes wRef [wRef, wSim1, wSim2] 3 =
      some ((simSorted wRef [wRef, wSim1, wSim2]).take 3) ∧
    simPairs wRef [wRef, wSim1, wSim2] =
      (([wRef, wSim1, wSim2]).filter (fun r => decide (r.id ≠ wRef.id) &&
          decide (0 < jaccard wRef.skills r.skills))).map
        (fun r => (r, jaccard wRef.skills r.skills)) ∧
    (simSorted wRef [wRef, wSim1, wSim2]).Perm (simPairs wRef [wRef, wSim1, wSim2]) ∧
    List.Sorted simLe (simSorted wRef [wRef, wSim1, wSim2]) ∧
    (∀ v : ℚ, (simSorted wRef [wRef, wSim1, wSim2]).filter
        (fun q => decide (q.2 = v)) =
      (simPairs wRef [wRef, wSim1, wSim2]).filter (fun q => decide (q.2 = v))) ∧
    ((simSorted wRef [wRef, wSim1, wSim2]).take 3).length ≤ 3 :=
  C5_similar_ranking wRef [wRef, wSim1, wSim2] 3 (by decide)

/-! ## Claims about corpus statistics -/

/-- C7 counterexample: on an empty corpus the stats operation does not
return a zeroed statistics payload; it returns the distinct early
`"Database is empty."` outcome. -/
theorem C7_empty_stats_counterexample :
    get_database_stats ([] : List Resume) ≠
      StatsOutput.stats
        { total := 0, withSkills := 0, withExperience := 0, withEducation := 0,
          withEmail := 0, withPhone := 0, avgSkills := 0, avgExperience := 0,
          avgEducation := 0 } := by
  decide

/-- C7 amended: on an empty corpus the operation answers with the explicit
early `"Database is empty."` guard and computes no counts or averages, so no
division error can occur; on any non-empty corpus the statistics are
computed with the strictly positive record count as denominator. -/
theorem C7_empty_corpus_guard :
    get_database_stats ([] : List Resume) = StatsOutput.emptyDb ∧
    (∀ corpus : List Resume, corpus ≠ [] →
      ∃ s : DbStats, get_database_stats corpus = StatsOutput.stats s ∧
        s.total = corpus.length ∧ 0 < s.total) := by
  constructor
  · rfl
  · intro corpus hne
    have hl : corpus.length ≠ 0 := by
      simpa [List.length_eq_zero] using hne
    have hstats : get_database_stats corpus = StatsOutput.stats
        { total := corpus.length
          withSkills := (corpus.filter (fun r => decide (r.skills ≠ []))).length
          withExperience := (corpus.filter (fun r => decide (r.experience ≠ []))).length
          withEducation := (corpus.filter (fun r => decide (r.education ≠ []))).length
          withEmail := (corpus.filter (fun r => decide (r.email ≠ ("")))).length
          withPhone := (corpus.filter (fun r => decide (r.phone ≠ ("")))).length
          avgSkills :=
            ((corpus.map (fun r => r.skills.length)).sum : ℚ) / (corpus.length : ℚ)
          avgExperience :=
            ((corpus.map (fun r => r.experience.length)).sum : ℚ) / (corpus.length : ℚ)
          avgEducation :=
            ((corpus.map (fun r => r.education.length)).sum : ℚ) / (corpus.length : ℚ) } := by
      unfold get_database_stats
      rw [if_neg hl]
    exact ⟨_, hstats, rfl, Nat.pos_of_ne_zero hl⟩

/-- C7 witness: the non-empty branch of the amended claim at a concrete
one-record corpus. -/
theorem C7_empty_corpus_guard_witness :
    ∃ s : DbStats, get_database_stats [wSmall] = StatsOutput.stats s ∧
      s.total = ([wSmall] : List Resume).length ∧ 0 < s.total :=
  C7_empty_corpus_guard.2 [wSmall] (by decide)

/-! ## Claims about extraction -/

/-- C10: the extracted skills list is duplicate-free, and a string belongs to
it exactly when it is one of the 23 vocabulary tokens whose lowercase form
is a substring of the lowercased input text. -/
theorem C10_skills_vocabulary (text : String) (entities : List (String × String)) :
    (extract_info text entities).skills.Nodup ∧
    (∀ s : String, s ∈ (extract_info text entities).skills ↔
      (s ∈ sample_skills ∧ pyIn (pyLower s) (pyLower text) = true)) ∧
    sample_skills.length = 23 ∧ sample_skills.Nodup := by
  refine ⟨?_, ?_, by decide, by decide⟩
  · exact List.nodup_dedup _
  · intro s
    show s ∈ (sample_skills.filter (fun sk => pyIn (pyLower sk) (pyLower text))).dedup ↔ _
    rw [List.mem_dedup, List.mem_filter]

/-- C6: the extracted experience list is the first five trimmed source lines
that contain an experience keyword, in original line order; in particular it
never has more than 5 entries and each entry is a trimmed matching line. -/
theorem C6_experience_lines (text : String) (entities : List (String × String)) :
    (extract_info text entities).experience =
      (((splitLines text).filter expLineMatch).map pyStrip).take 5 ∧
    (extract_info text entities).experience.length ≤ 5 ∧
    (∀ s : String, s ∈ (extract_info text entities).experience →
      ∃ line, line ∈ splitLines text ∧ expLineMatch line = true ∧ s = pyStrip line) := by
  have hfield : (extract_info text entities).experience =
      (((splitLines text).filter expLineMatch).map pyStrip).take 5 := rfl
  refine ⟨hfield, ?_, ?_⟩
  · rw [hfield, List.length_take]
    exact min_le_left _ _
  · intro s hs
    rw [hfield] at hs
    have hs' := List.take_subset _ _ hs
    obtain ⟨line, hline, hmap⟩ := List.mem_map.mp hs'
    obtain ⟨hmem, hpred⟩ := List.mem_filter.mp hline
    exact ⟨line, hmem, hpred, hmap.symm⟩

/-- C6 witness: the element characterization at a concrete one-line text
whose single line matches the keyword `experience`. -/
theorem C6_experience_lines_witness :
    ∃ line, line ∈ splitLines ("work experience") ∧ expLineMatch line = true ∧
      ("work experience") = pyStrip line :=
  (C6_experience_lines ("work experience") []).2.2 ("work experience") (by decide)

/-! ## Search lemmas for the regex models -/

theorem firstFrom_some {p : Nat → Bool} :
    ∀ {f i j : Nat}, firstFrom p i f = some j →
      p j = true ∧ i ≤ j ∧ (∀ k, i ≤ k → k < j → p k = false) := by
  intro f
  induction f with
  | zero => intro i j h; exact absurd h (by simp [firstFrom])
  | succ f ih =>
    intro i j h
    unfold firstFrom at h
    by_cases hp : p i = true
    · rw [if_pos hp] at h
      obtain rfl : i = j := by injection h
      exact ⟨hp, le_refl i, fun k hk1 hk2 => absurd (lt_of_le_of_lt hk1 hk2) (lt_irrefl i)⟩
    · rw [if_neg hp] at h
      obtain ⟨hj, hij, hmin⟩ := ih h
      refine ⟨hj, by omega, fun k hk1 hk2 => ?_⟩
      by_cases hk : k = i
      · rw [hk]
        simpa using hp
      · exact hmin k (by omega) hk2

theorem firstFrom_none {p : Nat → Bool} :
    ∀ {f i : Nat}, firstFrom p i f = none →
      ∀ k, i ≤ k → k < i + f → p k = false := by
  intro f
  induction f with
  | zero => intro i _ k hk1 hk2; omega
  | succ f ih =>
    intro i h k hk1 hk2
    unfold firstFrom at h
    by_cases hp : p i = true
    · rw [if_pos hp] at h; exact absurd h (by simp)
    · rw [if_neg hp] at h
      by_cases hk : k = i
      · rw [hk]; simpa using hp
      · exact ih h k (by omega) (by omega)

theorem bestLen_some {p : Nat → Bool} :
    ∀ {l m : Nat}, bestLen p l = some m →
      p m = true ∧ 1 ≤ m ∧ m ≤ l ∧ (∀ k, m < k → k ≤ l → p k = false) := by
  intro l
  induction l with
  | zero => intro m h; exact absurd h (by simp [bestLen])
  | succ l ih =>
    intro m h
    unfold bestLen at h
    by_cases hp : p (l + 1) = true
    · rw [if_pos hp] at h
      obtain rfl : l + 1 = m := by injection h
      exact ⟨hp, by omega, le_refl _, fun k hk1 hk2 => by omega⟩
    · rw [if_neg hp] at h
      obtain ⟨hm, h1, h2, hmax⟩ := ih h
      refine ⟨hm, h1, by omega, fun k hk1 hk2 => ?_⟩
      by_cases hk : k = l + 1
      · rw [hk]; simpa using hp
      · exact hmax k hk1 (by omega)

theorem bestLen_none {p : Nat → Bool} :
    ∀ {l : Nat}, bestLen p l = none → ∀ k, 1 ≤ k → k ≤ l → p k = false := by
  intro l
  induction l with
  | zero => intro _ k hk1 hk2; omega
  | succ l ih =>
    intro h k hk1 hk2
    unfold bestLen at h
    by_cases hp : p (l + 1) = true
    · rw [if_pos hp] at h; exact absurd h (by simp)
    · rw [if_neg hp] at h
      by_cases hk : k = l + 1
      · rw [hk]; simpa using hp
      · exact ih h k hk1 (by omega)

theorem emailMatchAt_bounds {cs : List Char} {i l : Nat}
    (h : emailMatchAt cs i l = true) : 0 < l ∧ i + l ≤ cs.length := by
  unfold emailMatchAt at h
  simp only [Bool.and_eq_true, decide_eq_true_eq] at h
  exact ⟨h.1.1.1.1, h.1.1.1.2⟩

theorem phoneMatchAt_bounds {cs : List Char} {i : Nat}
    (h : phoneMatchAt cs i = true) : i + 10 ≤ cs.length := by
  unfold phoneMatchAt at h
  simp only [Bool.and_eq_true, decide_eq_true_eq] at h
  exact h.1.1.1

theorem email_no_match_of_lenAt_none {cs : List Char} {i : Nat}
    (h : emailLenAt cs i = none) : ∀ l, emailMatchAt cs i l = false := by
  intro l
  cases hval : emailMatchAt cs i l
  · rfl
  · exfalso
    obtain ⟨h1, h2⟩ := emailMatchAt_bounds hval
    have := bestLen_none h l h1 (by omega)
    rw [hval] at this
    exact absurd this (by simp)

theorem stringMk_ne_empty {xs : List Char} (h : xs ≠ []) : String.mk xs ≠ ("") := by
  intro he
  apply h
  have hdata : (String.mk xs).data = (("") : String).data := by rw [he]
  simpa using hdata

theorem searchEmail_none_sound {cs : List Char} (h : searchEmail cs = none) :
    ∀ i l, emailMatchAt cs i l = false := by
  unfold searchEmail at h
  split at h
  next i0 hf =>
    split at h
    next l0 he => exact absurd h (by simp)
    next he =>
      exfalso
      have hp := (firstFrom_some hf).1
      rw [he] at hp
      exact absurd hp (by simp)
  next hf =>
    intro i l
    by_cases hi : i < cs.length
    · have hfalse := firstFrom_none hf i (Nat.zero_le i) (by omega)
      have hnone : emailLenAt cs i = none := by
        cases he : emailLenAt cs i
        · rfl
        · rw [he] at hfalse; exact absurd hfalse (by simp)
      exact email_no_match_of_lenAt_none hnone l
    · cases hval : emailMatchAt cs i l
      · rfl
      · exfalso
        obtain ⟨h1, h2⟩ := emailMatchAt_bounds hval
        omega

theorem searchEmail_some_sound {cs : List Char} {i l : Nat}
    (h : searchEmail cs = some (i, l)) :
    emailMatchAt cs i l = true ∧
    (∀ j m, j < i → emailMatchAt cs j m = false) ∧
    (∀ m, l < m → emailMatchAt cs i m = false) ∧
    0 < l ∧ i + l ≤ cs.length := by
  unfold searchEmail at h
  split at h
  case h_2 hf => exact absurd h (by simp)
  case h_1 i0 hf =>
    split at h
    case h_2 he => exact absurd h (by simp)
    case h_1 l0 he =>
      obtain ⟨rfl, rfl⟩ : i = i0 ∧ l = l0 := by
        have := h.symm
        simpa [eq_comm] using this
      obtain ⟨hp, -, hmin⟩ := firstFrom_some hf
      obtain ⟨hm, h1, h2, hmax⟩ := bestLen_some he
      obtain ⟨hb1, hb2⟩ := emailMatchAt_bounds hm
      refine ⟨hm, ?_, ?_, hb1, hb2⟩
      · intro j m hj
        have hfalse := hmin j (Nat.zero_le j) hj
        have hnone : emailLenAt cs j = none := by
          cases hej : emailLenAt cs j
          · rfl
          · rw [hej] at hfalse; exact absurd hfalse (by simp)
        exact email_no_match_of_lenAt_none hnone m
      · intro m hlm
        by_cases hbound : m ≤ cs.length - i
        · exact hmax m hlm hbound
        · cases hval : emailMatchAt cs i m
          · rfl
          · exfalso
            obtain ⟨q1, q2⟩ := emailMatchAt_bounds hval
            omega

theorem searchPhone_none_sound {cs : List Char} (h : searchPhone cs = none) :
    ∀ i, phoneMatchAt cs i = false := by
  intro i
  by_cases hi : i < cs.length
  · exact firstFrom_none h i (Nat.zero_le i) (by omega)
  · cases hval : phoneMatchAt cs i
    · rfl
    · exfalso
      have hb := phoneMatchAt_bounds hval
      omega

theorem searchPhone_some_sound {cs : List Char} {i : Nat}
    (h : searchPhone cs = some i) :
    phoneMatchAt cs i = true ∧ (∀ j, j < i → phoneMatchAt cs j = false) ∧
    i + 10 ≤ cs.length := by
  obtain ⟨hp, -, hmin⟩ := firstFrom_some h
  exact ⟨hp, fun j hj => hmin j (Nat.zero_le j) hj, phoneMatchAt_bounds hp⟩

/-! ## Claims about email and phone extraction -/

/-- C8 counterexample: on the text `a@b.12` the code extracts the non-empty
email `a@b.12`, yet no substring of that text at all matches the claim's
pattern (whose top-level segment must consist of 2-4 letters; here it is the
digits `12`), so the email field is neither empty nor a substring matching
the claim's pattern. -/
theorem C8_email_pattern_counterexample :
    extract_email ("a@b.12") = ("a@b.12") ∧
    ((List.range 7).all (fun i => (List.range 8).all (fun l =>
      ! emailClaimCore ((("a@b.12").toList.drop i).take l)))) = true := by
  constructor
  · decide
  · decide

/-- C8 amended: the email field is either empty (exactly when no span of the
text matches the code's pattern, word boundaries included and with a
top-level segment of 2-4 word characters), or the match at the leftmost
matchable position taken with the greatest matchable length; the phone field
is either empty (exactly when no 10-digit run bounded by word boundaries
exists) or the leftmost such run. -/
theorem C8_amended_first_match (text : String) :
    (extract_email text = ("") → ∀ i l, emailMatchAt text.toList i l = false) ∧
    (extract_email text ≠ ("") → ∃ i l, emailMatchAt text.toList i l = true ∧
      extract_email text = String.mk ((text.toList.drop i).take l) ∧
      (∀ j m, j < i → emailMatchAt text.toList j m = false) ∧
      (∀ m, l < m → emailMatchAt text.toList i m = false)) ∧
    (extract_phone text = ("") → ∀ i, phoneMatchAt text.toList i = false) ∧
    (extract_phone text ≠ ("") → ∃ i, phoneMatchAt text.toList i = true ∧
      extract_phone text = String.mk ((text.toList.drop i).take 10) ∧
      (∀ j, j < i → phoneMatchAt text.toList j = false)) := by
  refine ⟨?_, ?_, ?_, ?_⟩
  · intro h
    cases hs : searchEmail text.toList with
    | none => exact searchEmail_none_sound hs
    | some p =>
      exfalso
      obtain ⟨i0, l0⟩ := p
      obtain ⟨-, -, -, hb1, hb2⟩ := searchEmail_some_sound hs
      have hne : ((text.toList.drop i0).take l0) ≠ [] := by
        have hlen : ((text.toList.drop i0).take l0).length = l0 := by
          rw [List.length_take, List.length_drop]
          omega
        intro hnil
        rw [hnil] at hlen
        simp at hlen
        omega
      have hemail : extract_email text = String.mk ((text.toList.drop i0).take l0) := by
        unfold extract_email
        rw [hs]
      rw [hemail] at h
      exact stringMk_ne_empty hne h
  · intro h
    cases hs : searchEmail text.toList with
    | none =>
      exfalso
      apply h
      unfold extract_email
      rw [hs]
    | some p =>
      obtain ⟨i0, l0⟩ := p
      obtain ⟨hm, hmin, hmax, -, -⟩ := searchEmail_some_sound hs
      refine ⟨i0, l0, hm, ?_, hmin, hmax⟩
      unfold extract_email
      rw [hs]
  · intro h
    cases hs : searchPhone text.toList with
    | none => exact searchPhone_none_sound hs
    | some i0 =>
      exfalso
      obtain ⟨-, -, hb⟩ := searchPhone_some_sound hs
      have hne : ((text.toList.drop i0).take 10) ≠ [] := by
        have hlen : ((text.toList.drop i0).take 10).length = 10 := by
          rw [List.length_take, List.length_drop]
          omega
        intro hnil
        rw [hnil] at hlen
        simp at hlen
      have hphone : extract_phone text = String.mk ((text.toList.drop i0).take 10) := by
        unfold extract_phone
        rw [hs]
      rw [hphone] at h
      exact stringMk_ne_empty hne h
  · intro h
    cases hs : searchPhone text.toList with
    | none =>
      exfalso
      apply h
      unfold extract_phone
      rw [hs]
    | some i0 =>
      obtain ⟨hm, hmin, -⟩ := searchPhone_some_sound hs
      refine ⟨i0, hm, ?_, hmin⟩
      unfold extract_phone
      rw [hs]

/-- C8 witness: both branches of the amended claim at a concrete text
containing an email address and a 10-digit phone number. -/
theorem C8_amended_first_match_witness :
    (∃ i l, emailMatchAt (("a@b.cd 0123456789").toList) i l = true ∧
      extract_email ("a@b.cd 0123456789") =
        String.mk (((("a@b.cd 0123456789").toList).drop i).take l) ∧
      (∀ j m, j < i → emailMatchAt (("a@b.cd 0123456789").toList) j m = false) ∧
      (∀ m, l < m → emailMatchAt (("a@b.cd 0123456789").toList) i m = false)) ∧
    (∃ i, phoneMatchAt (("a@b.cd 0123456789").toList) i = true ∧
      extract_phone ("a@b.cd 0123456789") =
        String.mk (((("a@b.cd 0123456789").toList).drop i).take 10) ∧
      (∀ j, j < i → phoneMatchAt (("a@b.cd 0123456789").toList) j = false)) :=
  ⟨(C8_amended_first_match ("a@b.cd 0123456789")).2.1 (by decide),
   (C8_amended_first_match ("a@b.cd 0123456789")).2.2.2 (by decide)⟩
